import Mathlib

/-!
# ESP32-CAM WebSocket streaming server: model of `src/main.cpp`

The firmware is a single cooperative polling loop over a handful of global
variables.  The globals become the fields of `State`; every call into a vendor
library that the verified properties mention (WebSocket sends, camera buffer borrow and
return, HTTP responses, database writes, device restart) is recorded as an
`Effect`.  Inputs that come from the outside world (the clock, `app.ready()`,
database write results, camera capture results, HTTP requests and WebSocket
events dispatched by the vendor servers) are explicit arguments.

`unsigned long` is 32 bits wide on the ESP32; clock values are natural numbers
(true milliseconds since power-on) and `millis` truncates them to 32 bits.
Serial logging and `delay`/`yield` are not modelled.
-/

namespace Esp32Cam

/-! ## Machine arithmetic -/

/-- Number of values of a 32-bit `unsigned long`. -/
def U32 : Nat := 4294967296

/-- Value returned by `millis()` when the true clock shows `t` milliseconds. -/
def millis (t : Nat) : Nat := t % U32

/-- Subtraction `a - b` of two `unsigned long` values (wraps modulo 2^32). -/
def sub32 (a b : Nat) : Nat := (a % U32 + (U32 - b % U32)) % U32

/-- Global `wsFrameInterval` (line 51). -/
def wsFrameInterval : Nat := 100

/-- Global `connectionTimeout` (line 80); it is never assigned after its initialiser. -/
def connectionTimeout : Nat := 60000

/-! ## C strings -/

/-- Bytes of an ASCII string literal. -/
def bytes (s : String) : List Nat := s.toList.map Char.toNat

/-- The C string that starts at a buffer: its bytes up to the first NUL.  (The
WebSocket library writes a terminating NUL after the payload of a text frame.) -/
def cstr (p : List Nat) : List Nat := p.takeWhile (fun b => b != 0)

/-- Test `strcmp((char*)payload, lit) == 0`. -/
def strcmpEq (payload : List Nat) (lit : String) : Bool := cstr payload == bytes lit

/-! ## State and effects -/

/-- The mutable globals of `main.cpp` (lines 47, 50, 52, 79, 81, 82). -/
structure State where
  clientConnected : Bool
  wsLastFrameTime : Nat
  streamActive : Bool
  lastConnectionTime : Nat
  hasActiveConnection : Bool
  taskComplete : Bool
deriving DecidableEq, Repr

/-- Calls into the vendor libraries, in program order. -/
inductive Effect where
  | sendTXT (num : Nat) (msg : String)
  | fbGet (fb : Option (List Nat))
  | broadcastBIN (data : List Nat)
  | fbReturn (data : List Nat)
  | httpSend (code : Nat) (contentType : String) (body : String)
  | dbSetString (path : String) (value : String) (ok : Bool)
  | dbSetInt (path : String) (value : Nat) (ok : Bool)
  | restart
deriving DecidableEq, Repr

/-- Event kinds of the WebSocket library (`WStype_t`). -/
inductive WStype where
  | ERROR | DISCONNECTED | CONNECTED | TEXT | BIN
  | FRAGMENT_TEXT_START | FRAGMENT_BIN_START | FRAGMENT | FRAGMENT_FIN
  | PING | PONG
deriving DecidableEq, Repr

/-- One callback of `webSocketEvent`, with the clock at the time it runs. -/
structure WsEvent where
  num : Nat
  type : WStype
  payload : List Nat
  t : Nat
deriving DecidableEq, Repr

/-- One HTTP request dispatched by `server.handleClient()`.  `tUptime` is the clock
when `handleStatus` reads `millis()` for the uptime, `tStamp` the clock when the
handler stores `lastConnectionTime`. -/
structure HttpRequest where
  uri : String
  tUptime : Nat
  tStamp : Nat
deriving DecidableEq, Repr

/-! ## The functions of `main.cpp` -/

/-- Function `webSocketEvent` (lines 106-153). -/
def webSocketEvent (s : State) (e : WsEvent) : State × List Effect :=
  match e.type with
  | .DISCONNECTED =>
      (if e.num = 0 then { s with clientConnected := false } else s, [])
  | .CONNECTED =>
      ({ s with clientConnected := true
                lastConnectionTime := millis e.t
                hasActiveConnection := true
                streamActive := true },
       [.sendTXT e.num "Connected to ESP32-CAM WebSocket Server"])
  | .TEXT =>
      if strcmpEq e.payload "stream_start" then
        ({ s with streamActive := true }, [.sendTXT e.num "Streaming started"])
      else if strcmpEq e.payload "stream_stop" then
        ({ s with streamActive := false }, [.sendTXT e.num "Streaming stopped"])
      else (s, [])
  | _ => (s, [])

/-- Function `sendCameraFrameWs` (lines 156-176).  `now` is the clock when `millis()`
is read, `fb` is what `esp_camera_fb_get()` returns if it is called. -/
def sendCameraFrameWs (s : State) (now : Nat) (fb : Option (List Nat)) :
    State × List Effect :=
  if !s.clientConnected || !s.streamActive then (s, [])
  else
    let currentTime := millis now
    if sub32 currentTime s.wsLastFrameTime < wsFrameInterval then (s, [])
    else
      let s1 := { s with wsLastFrameTime := currentTime }
      match fb with
      | none => (s1, [.fbGet none])
      | some f => (s1, [.fbGet (some f), .broadcastBIN f, .fbReturn f])

/-- Function `sendIPToFirebase` (lines 207-250); `ipOk` and `portOk` are the results
of the two `Database.set` calls. -/
def sendIPToFirebase (s : State) (ip : String) (ipOk portOk : Bool) :
    State × List Effect :=
  let s1 := if ipOk then { s with taskComplete := true } else s
  (s1, [.dbSetString "/devices/esp32cam_001/ip_address" ip ipOk,
        .dbSetInt "/devices/esp32cam_001/ws_port" 81 portOk])

/-- Page built by `handleRoot` (lines 290-297). -/
def rootHtml (ip : String) : String :=
  "<html><head><title>ESP32-CAM WebSocket Server</title>"
  ++ "<style>body\x7bfont-family:Arial,sans-serif;max-width:800px;margin:0 auto;padding:20px;line-height:1.6\x7d</style>"
  ++ "</head><body>"
  ++ "<h1>ESP32-CAM WebSocket Server</h1>"
  ++ "<p>This ESP32-CAM is configured for WebSocket streaming.</p>"
  ++ ("<p><strong>WebSocket URL:</strong> ws://" ++ ip ++ ":81/ws</p>")
  ++ "<p>Use the ESP32 Client app to view the stream.</p>"
  ++ "</body></html>"

/-- Function `handleRoot` (lines 289-304). -/
def handleRoot (s : State) (ip : String) (r : HttpRequest) : State × List Effect :=
  ({ s with lastConnectionTime := millis r.tStamp, hasActiveConnection := true },
   [.httpSend 200 "text/html" (rootHtml ip)])

/-- Body built by `handleStatus` (lines 308-313). -/
def statusJson (ip : String) (ms : Nat) (connected : Bool) : String :=
  "\x7b"
  ++ ("\"ip\":\"" ++ ip ++ "\",")
  ++ "\"wsPort\":81,"
  ++ ("\"uptime\":" ++ toString (ms / 1000) ++ ",")
  ++ ("\"connected\":" ++ (if connected then "true" else "false"))
  ++ "\x7d"

/-- Function `handleStatus` (lines 307-320). -/
def handleStatus (s : State) (ip : String) (r : HttpRequest) : State × List Effect :=
  ({ s with lastConnectionTime := millis r.tStamp, hasActiveConnection := true },
   [.httpSend 200 "application/json" (statusJson ip (millis r.tUptime) s.clientConnected)])

/-- The handler given to `server.onNotFound` (lines 372-374). -/
def handleNotFound (s : State) : State × List Effect :=
  (s, [.httpSend 404 "text/plain" "Not found"])

/-- Handlers that `setup` registers with `server.on`. -/
inductive Handler where
  | root | status
deriving DecidableEq, Repr

/-- Route table built by `setup` (lines 370-371). -/
def routes : List (String × Handler) := [("/", .root), ("/status", .status)]

/-- Dispatch of one request by the HTTP server: the handler registered for exactly
this URI, the not-found handler when there is none. -/
def handleRequest (ip : String) (s : State) (r : HttpRequest) : State × List Effect :=
  match routes.lookup r.uri with
  | some .root => handleRoot s ip r
  | some .status => handleStatus s ip r
  | none => handleNotFound s

/-- Run a callback over the items a vendor server dispatches in one poll, threading
the state and collecting the effects in order. -/
def dispatch {α : Type} (h : State → α → State × List Effect) (s : State) :
    List α → State × List Effect
  | [] => (s, [])
  | a :: rest =>
      let r := h s a
      let r2 := dispatch h r.1 rest
      (r2.1, r.2 ++ r2.2)

/-- Everything one iteration of `loop` reads from the outside world. -/
structure LoopInput where
  appReady : Bool
  ipWriteOk : Bool
  portWriteOk : Bool
  localIP : String
  requests : List HttpRequest
  wsEvents : List WsEvent
  tFrame : Nat
  fb : Option (List Nat)
  tCheck : Nat
deriving DecidableEq, Repr

/-- Lines 395-399 of `loop`: the one-shot registration. -/
def registerStep (s : State) (i : LoopInput) : State × List Effect :=
  if i.appReady && !s.taskComplete then
    sendIPToFirebase { s with taskComplete := true } i.localIP i.ipWriteOk i.portWriteOk
  else (s, [])

/-- Lines 410-418 of `loop`: the connection timeout check. -/
def timeoutCheck (s : State) (now : Nat) : List Effect :=
  if !s.hasActiveConnection && !s.clientConnected then
    if sub32 (millis now) s.lastConnectionTime > connectionTimeout then [.restart] else []
  else []

/-- Function `loop` (lines 388-421). -/
def loop (s : State) (i : LoopInput) : State × List Effect :=
  let r1 := registerStep s i
  let r2 := dispatch (handleRequest i.localIP) r1.1 i.requests
  let r3 := dispatch webSocketEvent r2.1 i.wsEvents
  let r4 := sendCameraFrameWs r3.1 i.tFrame i.fb
  (r4.1, r1.2 ++ r2.2 ++ r3.2 ++ r4.2 ++ timeoutCheck r4.1 i.tCheck)

/-- Globals when `setup` returns at clock `t0` (initialisers plus line 367). -/
def setup (t0 : Nat) : State :=
  { clientConnected := false
    wsLastFrameTime := 0
    streamActive := false
    lastConnectionTime := millis t0
    hasActiveConnection := false
    taskComplete := false }

/-- Run `loop` over successive inputs within one boot cycle.  `ESP.restart()` ends
the cycle: the result is `none` when some iteration restarted the device, and
otherwise the state after the last iteration. -/
def bootRun (s : State) : List LoopInput → Option State
  | [] => some s
  | i :: rest =>
      let r := loop s i
      if Effect.restart ∈ r.2 then none else bootRun r.1 rest

/-- All vendor calls of a boot cycle in order, up to and including a restart. -/
def bootTrace (s : State) : List LoopInput → List Effect
  | [] => []
  | i :: rest =>
      let r := loop s i
      if Effect.restart ∈ r.2 then r.2 else r.2 ++ bootTrace r.1 rest

/-! ## Specification-side definitions -/

/-- Frame buffers borrowed from the camera driver and not yet returned, after a
sequence of vendor calls. -/
def outstanding : List Effect → Int
  | [] => 0
  | .fbGet (some _) :: rest => 1 + outstanding rest
  | .fbReturn _ :: rest => -1 + outstanding rest
  | _ :: rest => outstanding rest

/-- State in which `loop` calls `sendCameraFrameWs`: after the registration step and
the HTTP and WebSocket polls of this iteration. -/
def preFrame (s : State) (i : LoopInput) : State :=
  (dispatch webSocketEvent
    (dispatch (handleRequest i.localIP) (registerStep s i).1 i.requests).1 i.wsEvents).1

/-- Vendor calls of one iteration before `sendCameraFrameWs` is called. -/
def preFrameEffects (s : State) (i : LoopInput) : List Effect :=
  (registerStep s i).2
    ++ (dispatch (handleRequest i.localIP) (registerStep s i).1 i.requests).2
    ++ (dispatch webSocketEvent
        (dispatch (handleRequest i.localIP) (registerStep s i).1 i.requests).1 i.wsEvents).2

/-- Camera-driver calls. -/
def Effect.isCamera : Effect → Bool
  | .fbGet _ => true
  | .fbReturn _ => true
  | _ => false

/-- Writes of the device IP address, the first database call of `sendIPToFirebase`. -/
def Effect.isIpWrite : Effect → Bool
  | .dbSetString p _ _ => p == "/devices/esp32cam_001/ip_address"
  | _ => false

/-- Number of invocations of `sendIPToFirebase` visible in a sequence of vendor calls. -/
def registrations (l : List Effect) : Nat := l.countP Effect.isIpWrite

/-- Whether an iteration handles a request on a registered route or a WebSocket
`CONNECTED` event: the events that store `lastConnectionTime`. -/
def activity (i : LoopInput) : Bool :=
  i.requests.any (fun r => r.uri == "/" || r.uri == "/status")
    || i.wsEvents.any (fun e => e.type == .CONNECTED)

/-- An iteration at clock `t` in which nothing arrives: no request, no WebSocket
event, authentication not ready; the camera would deliver a two-byte frame. -/
def quiet (t : Nat) : LoopInput :=
  { appReady := false, ipWriteOk := false, portWriteOk := false, localIP := "192.168.4.1",
    requests := [], wsEvents := [], tFrame := t, fb := some [255, 216], tCheck := t }

/-- Client slots attached after a WebSocket event, given those attached before it: a
connect adds its slot, a disconnect removes it.  This set is bookkeeping of the
specification; the firmware keeps only the flag `clientConnected`. -/
def attachStep (a : List Nat) (e : WsEvent) : List Nat :=
  match e.type with
  | .CONNECTED => e.num :: a
  | .DISCONNECTED => a.filter (fun n => n != e.num)
  | _ => a

/-- Client slots attached after a sequence of WebSocket events. -/
def attached (a : List Nat) (es : List WsEvent) : List Nat := es.foldl attachStep a

/-- Every event of a sequence passes the test `ok`, which sees the slots attached
just before the event. -/
def admissible (ok : List Nat → WsEvent → Bool) (a : List Nat) : List WsEvent → Bool
  | [] => true
  | e :: rest => ok a e && admissible ok (attachStep a e) rest

/-- Well-formed event: a connect only on a free slot, a disconnect only on an attached
slot. -/
def wellFormedEvent (a : List Nat) (e : WsEvent) : Bool :=
  match e.type with
  | .CONNECTED => !a.contains e.num
  | .DISCONNECTED => a.contains e.num
  | _ => true

/-- A connect on a slot other than 0 happens only while slot 0 is attached (the server
hands out the lowest free slot). -/
def slotZeroFirstEvent (a : List Nat) (e : WsEvent) : Bool :=
  e.type != .CONNECTED || e.num == 0 || a.contains 0

/-- Every connect is on slot 0 (one session at a time). -/
def slotZeroOnlyEvent (_a : List Nat) (e : WsEvent) : Bool :=
  e.type != .CONNECTED || e.num == 0

/-- WebSocket events of a run in the order `webSocketEvent` receives them. -/
def wsHistory : List LoopInput → List WsEvent
  | [] => []
  | i :: rest => i.wsEvents ++ wsHistory rest

/-- Statement of the no-broadcast-without-client property for the iteration `i` that
follows the iterations `pre` of a boot cycle. -/
def BroadcastImpliesAttached (t0 : Nat) (pre : List LoopInput) (i : LoopInput) : Prop :=
  ∀ s, bootRun (setup t0) pre = some s →
    admissible wellFormedEvent [] (wsHistory (pre ++ [i])) = true →
    (∃ f, Effect.broadcastBIN f ∈ (loop s i).2) →
    attached [] (wsHistory (pre ++ [i])) ≠ []

/-- State in which the request after `rs` is handled in an iteration. -/
def atRequest (s : State) (i : LoopInput) (rs : List HttpRequest) : State :=
  (dispatch (handleRequest i.localIP) (registerStep s i).1 rs).1

/-- Statement of the status property for a `/status` request `r` handled in the
iteration `i` that follows the iterations `pre`, after the requests `rs`. -/
def StatusMatchesAttachment (t0 : Nat) (pre : List LoopInput) (i : LoopInput)
    (rs : List HttpRequest) (r : HttpRequest) : Prop :=
  ∀ s, bootRun (setup t0) pre = some s →
    admissible wellFormedEvent [] (wsHistory pre) = true →
    r.uri = "/status" →
    (handleRequest i.localIP (atRequest s i rs) r).2
      = [.httpSend 200 "application/json"
          ("\x7b\"ip\":\"" ++ i.localIP ++ "\",\"wsPort\":81,\"uptime\":"
            ++ toString (millis r.tUptime / 1000) ++ ",\"connected\":"
            ++ (if attached [] (wsHistory pre) ≠ [] then "true" else "false") ++ "\x7d")]

/-! ## Lemmas and theorems -/

theorem dispatch_nil {α : Type} (h : State → α → State × List Effect) (s : State) :
    dispatch h s [] = (s, []) := rfl

theorem dispatch_cons {α : Type} (h : State → α → State × List Effect) (s : State)
    (a : α) (rest : List α) :
    dispatch h s (a :: rest)
      = ((dispatch h (h s a).1 rest).1, (h s a).2 ++ (dispatch h (h s a).1 rest).2) := rfl

/-- A state projection that every callback preserves is preserved by a poll. -/
theorem dispatch_preserves {α β : Type} (f : State → β) (h : State → α → State × List Effect)
    (hp : ∀ s a, f (h s a).1 = f s) (l : List α) :
    ∀ s, f (dispatch h s l).1 = f s := by
  induction l with
  | nil => intro s; rfl
  | cons a rest ih => intro s; rw [dispatch_cons]; simp only; rw [ih, hp]

/-- Effects of a poll all satisfy what the effects of every callback satisfy. -/
theorem dispatch_effects {α : Type} (P : Effect → Prop) (h : State → α → State × List Effect)
    (hp : ∀ s a, ∀ x ∈ (h s a).2, P x) (l : List α) :
    ∀ s, ∀ x ∈ (dispatch h s l).2, P x := by
  induction l with
  | nil => intro s x hx; simp [dispatch_nil] at hx
  | cons a rest ih =>
      intro s x hx
      rw [dispatch_cons] at hx
      rcases List.mem_append.1 hx with h1 | h1
      · exact hp s a x h1
      · exact ih _ x h1

theorem handleRequest_cases (ip : String) (s : State) (r : HttpRequest) :
    (r.uri = "/" ∧ handleRequest ip s r = handleRoot s ip r)
    ∨ (r.uri = "/status" ∧ handleRequest ip s r = handleStatus s ip r)
    ∨ (r.uri ≠ "/" ∧ r.uri ≠ "/status" ∧ handleRequest ip s r = handleNotFound s) := by
  by_cases h1 : r.uri = "/"
  · left; refine ⟨h1, ?_⟩; simp [handleRequest, routes, List.lookup, h1]
  · by_cases h2 : r.uri = "/status"
    · right; left; refine ⟨h2, ?_⟩
      simp [handleRequest, routes, List.lookup, h2]
    · right; right; refine ⟨h1, h2, ?_⟩
      have b1 : (r.uri == "/") = false := by simpa using h1
      have b2 : (r.uri == "/status") = false := by simpa using h2
      simp [handleRequest, routes, List.lookup, b1, b2]

/-- C7: a request whose URI is neither "/" nor "/status" is answered with exactly one
response, 404 "text/plain" "Not found", and leaves the state unchanged; a request is
answered with status 200 exactly when its URI is one of the two registered routes. -/
theorem unknown_route_not_found (ip : String) (s : State) (r : HttpRequest) :
    (r.uri ≠ "/" → r.uri ≠ "/status" →
        handleRequest ip s r = (s, [.httpSend 404 "text/plain" "Not found"]))
    ∧ ((∃ ct body, Effect.httpSend 200 ct body ∈ (handleRequest ip s r).2)
        ↔ (r.uri = "/" ∨ r.uri = "/status")) := by
  rcases handleRequest_cases ip s r with ⟨h, e⟩ | ⟨h, e⟩ | ⟨h1, h2, e⟩
  · refine ⟨fun n => absurd h n, ?_⟩
    rw [e]; simp [handleRoot, h]
  · refine ⟨fun _ n => absurd h n, ?_⟩
    rw [e]; simp [handleStatus, h]
  · refine ⟨fun _ _ => by rw [e]; rfl, ?_⟩
    rw [e]; simp [handleNotFound, h1, h2]

/-- C8: with a client connected, streaming active and at least `wsFrameInterval`
elapsed (32-bit arithmetic) since `wsLastFrameTime`, a null capture makes
`sendCameraFrameWs` perform exactly one `esp_camera_fb_get` and nothing else (no
broadcast, no release), store the current `millis()` reading in `wsLastFrameTime`, and
leave every other global unchanged. -/
theorem capture_failure_consumes_slot (s : State) (now : Nat)
    (hc : s.clientConnected = true) (ha : s.streamActive = true)
    (ht : wsFrameInterval ≤ sub32 (millis now) s.wsLastFrameTime) :
    sendCameraFrameWs s now none
      = ({ s with wsLastFrameTime := millis now }, [.fbGet none]) := by
  have : ¬ sub32 (millis now) s.wsLastFrameTime < wsFrameInterval := Nat.not_lt.2 ht
  simp [sendCameraFrameWs, hc, ha, this]

theorem sendCameraFrameWs_cases (s : State) (now : Nat) (fb : Option (List Nat)) :
    sendCameraFrameWs s now fb = (s, [])
    ∨ (fb = none ∧ sendCameraFrameWs s now fb
        = ({ s with wsLastFrameTime := millis now }, [.fbGet none]))
    ∨ (∃ f, fb = some f ∧ s.clientConnected = true ∧ s.streamActive = true
        ∧ ¬ sub32 (millis now) s.wsLastFrameTime < wsFrameInterval
        ∧ sendCameraFrameWs s now fb
          = ({ s with wsLastFrameTime := millis now },
             [.fbGet (some f), .broadcastBIN f, .fbReturn f])) := by
  unfold sendCameraFrameWs
  by_cases h1 : s.clientConnected = true
  · by_cases h2 : s.streamActive = true
    · by_cases h3 : sub32 (millis now) s.wsLastFrameTime < wsFrameInterval
      · left; simp [h1, h2, h3]
      · cases fb with
        | none => right; left; simp [h1, h2, h3]
        | some f => right; right; exact ⟨f, rfl, h1, h2, h3, by simp [h1, h2, h3]⟩
    · left; simp [h1, h2]
  · left; simp [h1]

theorem registerStep_state (s : State) (i : LoopInput) :
    (registerStep s i).1 = { s with taskComplete := s.taskComplete || i.appReady } := by
  unfold registerStep sendIPToFirebase
  cases s with
  | mk cc wl sa lc ha tc =>
    cases tc <;> cases h : i.appReady <;> cases i.ipWriteOk <;> simp

theorem registerStep_effects (s : State) (i : LoopInput) :
    (registerStep s i).2 =
      if i.appReady && !s.taskComplete then
        [.dbSetString "/devices/esp32cam_001/ip_address" i.localIP i.ipWriteOk,
         .dbSetInt "/devices/esp32cam_001/ws_port" 81 i.portWriteOk]
      else [] := by
  unfold registerStep sendIPToFirebase
  split <;> rfl

theorem handleRequest_state (ip : String) (s : State) (r : HttpRequest) :
    ((r.uri = "/" ∨ r.uri = "/status") ∧ (handleRequest ip s r).1
        = { s with lastConnectionTime := millis r.tStamp, hasActiveConnection := true })
    ∨ (r.uri ≠ "/" ∧ r.uri ≠ "/status" ∧ (handleRequest ip s r).1 = s) := by
  rcases handleRequest_cases ip s r with ⟨h, e⟩ | ⟨h, e⟩ | ⟨h1, h2, e⟩
  · left; exact ⟨Or.inl h, by rw [e]; rfl⟩
  · left; exact ⟨Or.inr h, by rw [e]; rfl⟩
  · right; exact ⟨h1, h2, by rw [e]; rfl⟩

theorem handleRequest_effects (ip : String) (s : State) (r : HttpRequest) :
    ∀ x ∈ (handleRequest ip s r).2, ∃ c ct b, x = Effect.httpSend c ct b := by
  intro x hx
  rcases handleRequest_cases ip s r with ⟨_, e⟩ | ⟨_, e⟩ | ⟨_, _, e⟩ <;>
    rw [e] at hx <;>
    simp [handleRoot, handleStatus, handleNotFound] at hx <;>
    exact ⟨_, _, _, hx⟩

theorem webSocketEvent_effects (s : State) (e : WsEvent) :
    ∀ x ∈ (webSocketEvent s e).2, ∃ n m, x = Effect.sendTXT n m := by
  intro x hx
  unfold webSocketEvent at hx
  split at hx
  · simp at hx
  · simp at hx; exact ⟨_, _, hx⟩
  · split at hx
    · simp at hx; exact ⟨_, _, hx⟩
    · split at hx
      · simp at hx; exact ⟨_, _, hx⟩
      · simp at hx
  · simp at hx

theorem timeoutCheck_effects (s : State) (now : Nat) :
    ∀ x ∈ timeoutCheck s now, x = Effect.restart := by
  intro x hx
  unfold timeoutCheck at hx
  split at hx
  · split at hx
    · simpa using hx
    · simp at hx
  · simp at hx

theorem sendCameraFrameWs_state (s : State) (now : Nat) (fb : Option (List Nat)) :
    (sendCameraFrameWs s now fb).1 = s
    ∨ (sendCameraFrameWs s now fb).1 = { s with wsLastFrameTime := millis now } := by
  rcases sendCameraFrameWs_cases s now fb with e | ⟨_, e⟩ | ⟨f, _, _, _, _, e⟩
  · left; rw [e]
  · right; rw [e]
  · right; rw [e]

theorem loop_eq (s : State) (i : LoopInput) :
    loop s i = ((sendCameraFrameWs (preFrame s i) i.tFrame i.fb).1,
      preFrameEffects s i ++ (sendCameraFrameWs (preFrame s i) i.tFrame i.fb).2
        ++ timeoutCheck (sendCameraFrameWs (preFrame s i) i.tFrame i.fb).1 i.tCheck) := rfl

theorem webSocketEvent_wsLast (s : State) (e : WsEvent) :
    (webSocketEvent s e).1.wsLastFrameTime = s.wsLastFrameTime := by
  unfold webSocketEvent
  split
  · split <;> rfl
  · rfl
  · split
    · rfl
    · split <;> rfl
  · rfl

theorem webSocketEvent_taskComplete (s : State) (e : WsEvent) :
    (webSocketEvent s e).1.taskComplete = s.taskComplete := by
  unfold webSocketEvent
  split
  · split <;> rfl
  · rfl
  · split
    · rfl
    · split <;> rfl
  · rfl

theorem handleRequest_wsLast (ip : String) (s : State) (r : HttpRequest) :
    (handleRequest ip s r).1.wsLastFrameTime = s.wsLastFrameTime := by
  rcases handleRequest_state ip s r with ⟨_, e⟩ | ⟨_, _, e⟩ <;> rw [e]

theorem handleRequest_taskComplete (ip : String) (s : State) (r : HttpRequest) :
    (handleRequest ip s r).1.taskComplete = s.taskComplete := by
  rcases handleRequest_state ip s r with ⟨_, e⟩ | ⟨_, _, e⟩ <;> rw [e]

theorem handleRequest_clientConnected (ip : String) (s : State) (r : HttpRequest) :
    (handleRequest ip s r).1.clientConnected = s.clientConnected := by
  rcases handleRequest_state ip s r with ⟨_, e⟩ | ⟨_, _, e⟩ <;> rw [e]

theorem preFrame_wsLast (s : State) (i : LoopInput) :
    (preFrame s i).wsLastFrameTime = s.wsLastFrameTime := by
  unfold preFrame
  rw [dispatch_preserves State.wsLastFrameTime webSocketEvent webSocketEvent_wsLast,
    dispatch_preserves State.wsLastFrameTime _ (handleRequest_wsLast i.localIP),
    registerStep_state]

theorem preFrame_taskComplete (s : State) (i : LoopInput) :
    (preFrame s i).taskComplete = (s.taskComplete || i.appReady) := by
  unfold preFrame
  rw [dispatch_preserves State.taskComplete webSocketEvent webSocketEvent_taskComplete,
    dispatch_preserves State.taskComplete _ (handleRequest_taskComplete i.localIP),
    registerStep_state]

theorem loop_taskComplete (s : State) (i : LoopInput) :
    (loop s i).1.taskComplete = (s.taskComplete || i.appReady) := by
  rw [loop_eq]
  rcases sendCameraFrameWs_state (preFrame s i) i.tFrame i.fb with e | e <;>
    simp only [e] <;> exact preFrame_taskComplete s i

theorem preFrameEffects_noCamera (s : State) (i : LoopInput) :
    ∀ x ∈ preFrameEffects s i, x.isCamera = false := by
  intro x hx
  unfold preFrameEffects at hx
  rcases List.mem_append.1 hx with h | h
  · rcases List.mem_append.1 h with h | h
    · rw [registerStep_effects] at h
      split at h
      · simp at h; rcases h with h | h <;> rw [h] <;> rfl
      · simp at h
    · obtain ⟨c, ct, b, e⟩ := dispatch_effects _ _ (handleRequest_effects i.localIP) _ _ x h
      rw [e]; rfl
  · obtain ⟨n, m, e⟩ := dispatch_effects _ _ webSocketEvent_effects _ _ x h
    rw [e]; rfl

theorem timeoutCheck_noCamera (s : State) (now : Nat) :
    ∀ x ∈ timeoutCheck s now, x.isCamera = false := by
  intro x hx
  rw [timeoutCheck_effects s now x hx]; rfl

theorem outstanding_append (a b : List Effect) :
    outstanding (a ++ b) = outstanding a + outstanding b := by
  induction a with
  | nil => simp [outstanding]
  | cons x rest ih =>
      cases x with
      | fbGet fb => cases fb <;> simp [outstanding, ih]; ring
      | fbReturn d => simp [outstanding, ih]; ring
      | _ => simp [outstanding, ih]

theorem outstanding_noCamera (l : List Effect) (h : ∀ x ∈ l, x.isCamera = false) :
    outstanding l = 0 := by
  induction l with
  | nil => rfl
  | cons x rest ih =>
      have hx := h x (List.mem_cons_self _ _)
      have hr := ih (fun y hy => h y (List.mem_cons_of_mem _ hy))
      cases x with
      | fbGet fb => simp [Effect.isCamera] at hx
      | fbReturn d => simp [Effect.isCamera] at hx
      | _ => simp [outstanding, hr]

theorem outstanding_take_noCamera (l : List Effect) (h : ∀ x ∈ l, x.isCamera = false)
    (n : Nat) : outstanding (l.take n) = 0 :=
  outstanding_noCamera _ (fun x hx => h x (List.mem_of_mem_take hx))

theorem frame_take_bounds (s : State) (now : Nat) (fb : Option (List Nat)) (n : Nat) :
    0 ≤ outstanding ((sendCameraFrameWs s now fb).2.take n)
    ∧ outstanding ((sendCameraFrameWs s now fb).2.take n) ≤ 1 := by
  rcases sendCameraFrameWs_cases s now fb with e | ⟨_, e⟩ | ⟨f, _, _, _, _, e⟩
  · rw [e]; simp [outstanding]
  · rw [e]
    cases n with
    | zero => simp [outstanding]
    | succ n => simp [outstanding]
  · rw [e]
    match n with
    | 0 => simp [outstanding]
    | 1 => simp [outstanding]
    | 2 => simp [outstanding]
    | n + 3 => simp [outstanding]

theorem frame_outstanding (s : State) (now : Nat) (fb : Option (List Nat)) :
    outstanding (sendCameraFrameWs s now fb).2 = 0 := by
  rcases sendCameraFrameWs_cases s now fb with e | ⟨_, e⟩ | ⟨f, _, _, _, _, e⟩ <;>
    rw [e] <;> simp [outstanding]

theorem loop_outstanding (s : State) (i : LoopInput) : outstanding (loop s i).2 = 0 := by
  rw [loop_eq]
  simp only [outstanding_append, outstanding_noCamera _ (preFrameEffects_noCamera s i),
    outstanding_noCamera _ (timeoutCheck_noCamera _ _), frame_outstanding]
  rfl

theorem loop_take_bounds (s : State) (i : LoopInput) (n : Nat) :
    0 ≤ outstanding ((loop s i).2.take n) ∧ outstanding ((loop s i).2.take n) ≤ 1 := by
  rw [loop_eq]
  simp only [List.take_append_eq_append_take, outstanding_append,
    outstanding_take_noCamera _ (preFrameEffects_noCamera s i),
    outstanding_take_noCamera _ (timeoutCheck_noCamera _ _)]
  have := frame_take_bounds (preFrame s i) i.tFrame i.fb (n - (preFrameEffects s i).length)
  omega

theorem bootTrace_outstanding (ins : List LoopInput) :
    ∀ s, outstanding (bootTrace s ins) = 0 := by
  induction ins with
  | nil => intro s; rfl
  | cons i rest ih =>
      intro s
      unfold bootTrace
      simp only
      split
      · exact loop_outstanding s i
      · rw [outstanding_append, loop_outstanding, ih]; rfl

theorem bootTrace_take_bounds (ins : List LoopInput) :
    ∀ s n, 0 ≤ outstanding ((bootTrace s ins).take n)
      ∧ outstanding ((bootTrace s ins).take n) ≤ 1 := by
  induction ins with
  | nil => intro s n; simp [bootTrace, outstanding]
  | cons i rest ih =>
      intro s n
      unfold bootTrace
      simp only
      split
      · exact loop_take_bounds s i n
      · rw [List.take_append_eq_append_take, outstanding_append]
        by_cases hn : n ≤ (loop s i).2.length
        · have : n - (loop s i).2.length = 0 := by omega
          rw [this]
          have := loop_take_bounds s i n
          simp [outstanding]
          exact this
        · rw [List.take_of_length_le (by omega), loop_outstanding]
          have := ih (loop s i).1 (n - (loop s i).2.length)
          omega

/-- C9: a call of `sendCameraFrameWs` performs no vendor call, or one failed capture,
or one capture of a frame followed by one broadcast of that frame and its release; over
a boot cycle the number of borrowed frame buffers is 0 after the last completed
iteration and stays between 0 and 1 after every single vendor call. -/
theorem frame_buffer_borrow_discipline (t0 : Nat) (ins : List LoopInput) (s : State) (now : Nat)
    (fb : Option (List Nat)) (n : Nat) :
    ((sendCameraFrameWs s now fb).2 = []
      ∨ (sendCameraFrameWs s now fb).2 = [.fbGet none]
      ∨ ∃ f, fb = some f
          ∧ (sendCameraFrameWs s now fb).2 = [.fbGet (some f), .broadcastBIN f, .fbReturn f])
    ∧ outstanding (bootTrace (setup t0) ins) = 0
    ∧ 0 ≤ outstanding ((bootTrace (setup t0) ins).take n)
    ∧ outstanding ((bootTrace (setup t0) ins).take n) ≤ 1 := by
  refine ⟨?_, bootTrace_outstanding ins _, bootTrace_take_bounds ins _ n⟩
  rcases sendCameraFrameWs_cases s now fb with e | ⟨_, e⟩ | ⟨f, hf, _, _, _, e⟩
  · left; rw [e]
  · right; left; rw [e]
  · right; right; exact ⟨f, hf, by rw [e]⟩

theorem registrations_append (a b : List Effect) :
    registrations (a ++ b) = registrations a + registrations b := by
  simp [registrations, List.countP_append]

theorem registrations_zero (l : List Effect) (h : ∀ x ∈ l, x.isIpWrite = false) :
    registrations l = 0 := by
  unfold registrations
  rw [List.countP_eq_zero]
  intro x hx
  simp [h x hx]

theorem registerStep_registrations (s : State) (i : LoopInput) :
    registrations (registerStep s i).2 = if i.appReady && !s.taskComplete then 1 else 0 := by
  rw [registerStep_effects]
  split <;> simp [registrations, Effect.isIpWrite]

theorem loop_registrations (s : State) (i : LoopInput) :
    registrations (loop s i).2 = if i.appReady && !s.taskComplete then 1 else 0 := by
  have h2 : registrations (dispatch (handleRequest i.localIP) (registerStep s i).1 i.requests).2 = 0 := by
    apply registrations_zero
    intro x hx
    obtain ⟨c, ct, b, e⟩ := dispatch_effects _ _ (handleRequest_effects i.localIP) _ _ x hx
    rw [e]; rfl
  have h3 : registrations (dispatch webSocketEvent
      (dispatch (handleRequest i.localIP) (registerStep s i).1 i.requests).1 i.wsEvents).2 = 0 := by
    apply registrations_zero
    intro x hx
    obtain ⟨n, m, e⟩ := dispatch_effects _ _ webSocketEvent_effects _ _ x hx
    rw [e]; rfl
  have h4 : registrations (sendCameraFrameWs (preFrame s i) i.tFrame i.fb).2 = 0 := by
    rcases sendCameraFrameWs_cases (preFrame s i) i.tFrame i.fb with e | ⟨_, e⟩ | ⟨f, _, _, _, _, e⟩ <;>
      rw [e] <;> simp [registrations, Effect.isIpWrite]
  have h5 : registrations
      (timeoutCheck (sendCameraFrameWs (preFrame s i) i.tFrame i.fb).1 i.tCheck) = 0 := by
    apply registrations_zero
    intro x hx
    rw [timeoutCheck_effects _ _ x hx]; rfl
  rw [loop_eq]
  simp only [preFrameEffects, registrations_append, h2, h3, h4, h5,
    registerStep_registrations]
  rfl

theorem bootRun_cons (s : State) (i : LoopInput) (rest : List LoopInput) :
    bootRun s (i :: rest)
      = if Effect.restart ∈ (loop s i).2 then none else bootRun (loop s i).1 rest := rfl

theorem bootRun_taskComplete (pre : List LoopInput) :
    ∀ s s1, bootRun s pre = some s1 →
      s1.taskComplete = (s.taskComplete || pre.any (fun j => j.appReady)) := by
  induction pre with
  | nil => intro s s1 h; simp [bootRun] at h; simp [h]
  | cons i rest ih =>
      intro s s1 h
      rw [bootRun_cons] at h
      split at h
      · simp at h
      · rw [ih _ _ h, loop_taskComplete]
        simp [Bool.or_assoc]

theorem bootTrace_registrations (ins : List LoopInput) :
    ∀ s, registrations (bootTrace s ins) ≤ if s.taskComplete then 0 else 1 := by
  induction ins with
  | nil => intro s; simp [bootTrace, registrations]
  | cons i rest ih =>
      intro s
      have h1 := loop_registrations s i
      have h2 := ih (loop s i).1
      rw [loop_taskComplete] at h2
      unfold bootTrace
      simp only
      split
      · rw [h1]
        cases s.taskComplete <;> cases i.appReady <;> simp
      · rw [registrations_append, h1]
        revert h2
        cases s.taskComplete <;> cases i.appReady <;> simp

/-- C5: in an iteration that runs after the iterations `pre` of a boot cycle,
`sendIPToFirebase` is invoked once if `app.ready()` holds now and held in no earlier
iteration, and not at all otherwise, whatever the results of the database writes; over
any boot cycle it is invoked at most once. -/
theorem registration_exactly_first_ready (t0 : Nat) (pre : List LoopInput) (i : LoopInput) (s : State)
    (ins : List LoopInput) (h : bootRun (setup t0) pre = some s) :
    registrations (loop s i).2
        = (if i.appReady = true ∧ ∀ j ∈ pre, j.appReady = false then 1 else 0)
    ∧ registrations (bootTrace (setup t0) ins) ≤ 1 := by
  constructor
  · rw [loop_registrations, bootRun_taskComplete pre _ _ h]
    simp only [setup, Bool.false_or]
    by_cases hr : i.appReady = true
    · by_cases hp : ∀ j ∈ pre, j.appReady = false
      · have hany : pre.any (fun j => j.appReady) = false := by
          simpa using hp
        have e : (if i.appReady = true ∧ ∀ j ∈ pre, j.appReady = false then 1 else 0) = 1 :=
          if_pos ⟨hr, hp⟩
        rw [e]
        simp [hr, hany]
      · have hany : pre.any (fun j => j.appReady) = true := by
          simpa using hp
        have e : (if i.appReady = true ∧ ∀ j ∈ pre, j.appReady = false then 1 else 0) = 0 :=
          if_neg (fun c => hp c.2)
        rw [e]
        simp [hr, hany]
    · have e : (if i.appReady = true ∧ ∀ j ∈ pre, j.appReady = false then 1 else 0) = 0 :=
        if_neg (fun c => hr c.1)
      rw [e]
      simp [hr]
  · exact bootTrace_registrations ins (setup t0)

theorem webSocketEvent_active (s : State) (e : WsEvent)
    (h : s.hasActiveConnection = true ∨ e.type = .CONNECTED) :
    (webSocketEvent s e).1.hasActiveConnection = true := by
  unfold webSocketEvent
  split
  · rename_i hd
    rcases h with h | h
    · split <;> exact h
    · rw [hd] at h; cases h
  · rfl
  · rename_i hd
    rcases h with h | h
    · split
      · exact h
      · split <;> exact h
    · rw [hd] at h; cases h
  · rename_i h1 h2 h3
    rcases h with h | h
    · exact h
    · exact absurd h h2

theorem webSocketEvent_idle (s : State) (e : WsEvent) (h : e.type ≠ .CONNECTED) :
    (webSocketEvent s e).1.hasActiveConnection = s.hasActiveConnection
    ∧ (webSocketEvent s e).1.lastConnectionTime = s.lastConnectionTime := by
  unfold webSocketEvent
  split
  · split <;> exact ⟨rfl, rfl⟩
  · rename_i hc; exact absurd hc h
  · split
    · exact ⟨rfl, rfl⟩
    · split <;> exact ⟨rfl, rfl⟩
  · exact ⟨rfl, rfl⟩

theorem handleRequest_active (ip : String) (s : State) (r : HttpRequest)
    (h : s.hasActiveConnection = true ∨ (r.uri == "/" || r.uri == "/status") = true) :
    (handleRequest ip s r).1.hasActiveConnection = true := by
  rcases handleRequest_state ip s r with ⟨_, e⟩ | ⟨h1, h2, e⟩
  · rw [e]
  · rw [e]
    rcases h with h | h
    · exact h
    · simp [h1, h2] at h

theorem handleRequest_idle (ip : String) (s : State) (r : HttpRequest)
    (h : (r.uri == "/" || r.uri == "/status") = false) :
    (handleRequest ip s r).1 = s := by
  rcases handleRequest_state ip s r with ⟨h1, _⟩ | ⟨_, _, e⟩
  · rcases h1 with h1 | h1 <;> simp [h1] at h
  · exact e

theorem dispatch_ws_active (es : List WsEvent) :
    ∀ s, (s.hasActiveConnection = true ∨ es.any (fun e => e.type == .CONNECTED) = true) →
      (dispatch webSocketEvent s es).1.hasActiveConnection = true := by
  induction es with
  | nil => intro s h; simpa [dispatch_nil] using h
  | cons e rest ih =>
      intro s h
      rw [dispatch_cons]
      apply ih
      by_cases hc : e.type = .CONNECTED
      · left; exact webSocketEvent_active s e (Or.inr hc)
      · rcases h with h | h
        · left; exact webSocketEvent_active s e (Or.inl h)
        · right; simpa [hc] using h

theorem dispatch_ws_idle (es : List WsEvent) :
    ∀ s, es.any (fun e => e.type == .CONNECTED) = false →
      (dispatch webSocketEvent s es).1.hasActiveConnection = s.hasActiveConnection
      ∧ (dispatch webSocketEvent s es).1.lastConnectionTime = s.lastConnectionTime := by
  induction es with
  | nil => intro s _; exact ⟨rfl, rfl⟩
  | cons e rest ih =>
      intro s h
      simp only [List.any_cons, Bool.or_eq_false_iff] at h
      rw [dispatch_cons]
      have h1 := webSocketEvent_idle s e (by simpa using h.1)
      have h2 := ih (webSocketEvent s e).1 h.2
      exact ⟨h2.1.trans h1.1, h2.2.trans h1.2⟩

theorem dispatch_http_active (ip : String) (rs : List HttpRequest) :
    ∀ s, (s.hasActiveConnection = true
        ∨ rs.any (fun r => r.uri == "/" || r.uri == "/status") = true) →
      (dispatch (handleRequest ip) s rs).1.hasActiveConnection = true := by
  induction rs with
  | nil => intro s h; simpa [dispatch_nil] using h
  | cons r rest ih =>
      intro s h
      rw [dispatch_cons]
      apply ih
      cases hc : (r.uri == "/" || r.uri == "/status")
      · rcases h with h | h
        · left; exact handleRequest_active ip s r (Or.inl h)
        · right
          simp only [List.any_cons, hc, Bool.false_or] at h
          exact h
      · left; exact handleRequest_active ip s r (Or.inr hc)

theorem dispatch_http_idle (ip : String) (rs : List HttpRequest) :
    ∀ s, rs.any (fun r => r.uri == "/" || r.uri == "/status") = false →
      (dispatch (handleRequest ip) s rs).1 = s := by
  induction rs with
  | nil => intro s _; rfl
  | cons r rest ih =>
      intro s h
      rw [List.any_cons, Bool.or_eq_false_iff] at h
      rw [dispatch_cons]
      simp only
      rw [handleRequest_idle ip s r h.1, ih s h.2]

theorem frame_connection (s : State) (now : Nat) (fb : Option (List Nat)) :
    (sendCameraFrameWs s now fb).1.hasActiveConnection = s.hasActiveConnection
    ∧ (sendCameraFrameWs s now fb).1.lastConnectionTime = s.lastConnectionTime
    ∧ (sendCameraFrameWs s now fb).1.clientConnected = s.clientConnected := by
  rcases sendCameraFrameWs_state s now fb with e | e <;> rw [e] <;> exact ⟨rfl, rfl, rfl⟩

theorem loop_active (s : State) (i : LoopInput)
    (h : s.hasActiveConnection = true ∨ activity i = true) :
    (loop s i).1.hasActiveConnection = true := by
  rw [loop_eq]
  simp only
  rw [(frame_connection _ _ _).1]
  unfold preFrame
  apply dispatch_ws_active
  by_cases hw : i.wsEvents.any (fun e => e.type == .CONNECTED) = true
  · right; exact hw
  · left
    apply dispatch_http_active
    rcases h with h | h
    · left; rw [registerStep_state]; exact h
    · right
      unfold activity at h
      simpa [hw] using h

theorem loop_idle (s : State) (i : LoopInput) (h : activity i = false) :
    (loop s i).1.hasActiveConnection = s.hasActiveConnection
    ∧ (loop s i).1.lastConnectionTime = s.lastConnectionTime := by
  unfold activity at h
  simp only [Bool.or_eq_false_iff] at h
  rw [loop_eq]
  simp only
  rw [(frame_connection _ _ _).1, (frame_connection _ _ _).2.1]
  unfold preFrame
  rw [(dispatch_ws_idle _ _ h.2).1, (dispatch_ws_idle _ _ h.2).2,
    dispatch_http_idle _ _ _ h.1, registerStep_state]
  exact ⟨rfl, rfl⟩

theorem loop_restart (s : State) (i : LoopInput) (h : Effect.restart ∈ (loop s i).2) :
    (loop s i).1.hasActiveConnection = false
    ∧ connectionTimeout < sub32 (millis i.tCheck) (loop s i).1.lastConnectionTime := by
  rw [loop_eq] at h ⊢
  simp only at h ⊢
  rcases List.mem_append.1 h with h1 | h1
  · rcases List.mem_append.1 h1 with h2 | h2
    · unfold preFrameEffects at h2
      rcases List.mem_append.1 h2 with h3 | h3
      · rcases List.mem_append.1 h3 with h4 | h4
        · rw [registerStep_effects] at h4
          split at h4 <;> simp at h4
        · obtain ⟨c, ct, b, e⟩ := dispatch_effects _ _ (handleRequest_effects i.localIP) _ _ _ h4
          cases e
      · obtain ⟨n, m, e⟩ := dispatch_effects _ _ webSocketEvent_effects _ _ _ h3
        cases e
    · rcases sendCameraFrameWs_cases (preFrame s i) i.tFrame i.fb with e | ⟨_, e⟩ | ⟨f, _, _, _, _, e⟩ <;>
        rw [e] at h2 <;> simp at h2
  · unfold timeoutCheck at h1
    split at h1
    · rename_i hc
      split at h1
      · rename_i ht
        simp only [Bool.and_eq_true, Bool.not_eq_true'] at hc
        exact ⟨hc.1, ht⟩
      · simp at h1
    · simp at h1

theorem bootRun_active (pre : List LoopInput) :
    ∀ s s1, bootRun s pre = some s1 →
      (s.hasActiveConnection = true ∨ ∃ j ∈ pre, activity j = true) →
      s1.hasActiveConnection = true := by
  induction pre with
  | nil =>
      intro s s1 h ha
      simp [bootRun] at h
      rcases ha with ha | ⟨j, hj, _⟩
      · rw [← h]; exact ha
      · cases hj
  | cons i rest ih =>
      intro s s1 h ha
      rw [bootRun_cons] at h
      split at h
      · simp at h
      · apply ih _ _ h
        rcases ha with ha | ⟨j, hj, hact⟩
        · left; exact loop_active s i (Or.inl ha)
        · rcases List.mem_cons.1 hj with e | hm
          · left; exact loop_active s i (Or.inr (e ▸ hact))
          · right; exact ⟨j, hm, hact⟩

theorem bootRun_idle (pre : List LoopInput) :
    ∀ s s1, bootRun s pre = some s1 → (∀ j ∈ pre, activity j = false) →
      s1.lastConnectionTime = s.lastConnectionTime := by
  induction pre with
  | nil => intro s s1 h _; simp [bootRun] at h; rw [h]
  | cons i rest ih =>
      intro s s1 h ha
      rw [bootRun_cons] at h
      split at h
      · simp at h
      · rw [ih _ _ h (fun j hj => ha j (List.mem_cons_of_mem _ hj)),
          (loop_idle s i (ha i (List.mem_cons_self _ _))).2]

theorem elapsed_timeout (t0 t : Nat) (h : connectionTimeout < sub32 (millis t) (millis t0))
    (hle : t0 ≤ t) : t0 + connectionTimeout < t := by
  unfold connectionTimeout sub32 millis U32 at *
  omega

/-- C10: once an iteration of the boot cycle (an earlier one or the current one) has
handled a request to "/" or "/status" or a WebSocket CONNECTED event, the current
iteration does not restart the device; an iteration that does restart it belongs to a
run without any such event, and more than `connectionTimeout` milliseconds separate the
timeout check from the clock at which `setup` stored `lastConnectionTime`. -/
theorem restart_unreachable_after_activity (t0 : Nat) (pre : List LoopInput) (i : LoopInput) (s : State)
    (h : bootRun (setup t0) pre = some s) :
    ((∃ j ∈ pre ++ [i], activity j = true) → Effect.restart ∉ (loop s i).2)
    ∧ (Effect.restart ∈ (loop s i).2 →
        (∀ j ∈ pre ++ [i], activity j = false)
        ∧ connectionTimeout < sub32 (millis i.tCheck) (millis t0)
        ∧ (t0 ≤ i.tCheck → t0 + connectionTimeout < i.tCheck)) := by
  have key : Effect.restart ∈ (loop s i).2 → ∀ j ∈ pre ++ [i], activity j = false := by
    intro hr j hj
    have hfalse := (loop_restart s i hr).1
    cases hact : activity j
    · rfl
    · exfalso
      have : (loop s i).1.hasActiveConnection = true := by
        rcases List.mem_append.1 hj with hp | hi
        · exact loop_active s i (Or.inl (bootRun_active pre _ _ h (Or.inr ⟨j, hp, hact⟩)))
        · have : j = i := by simpa using hi
          exact loop_active s i (Or.inr (this ▸ hact))
      rw [this] at hfalse
      cases hfalse
  refine ⟨?_, ?_⟩
  · rintro ⟨j, hj, hact⟩ hr
    rw [key hr j hj] at hact
    cases hact
  · intro hr
    have hall := key hr
    have ht := (loop_restart s i hr).2
    have hi : activity i = false := hall i (by simp)
    have hpre : ∀ j ∈ pre, activity j = false :=
      fun j hj => hall j (List.mem_append_left _ hj)
    rw [(loop_idle s i hi).2, bootRun_idle pre _ _ h hpre] at ht
    have ht2 : connectionTimeout < sub32 (millis i.tCheck) (millis t0) := ht
    exact ⟨hall, ht2, elapsed_timeout t0 i.tCheck ht2⟩

/-- C1 fails on the code: boot at clock 0, one request to "/status" at 1000 ms, then
nothing.  An iteration at any later clock `t` that sees no request and no WebSocket
event does not restart the device; at `t` = 100000 ms the firmware's own timer shows
99000 ms since the last activity. -/
theorem idle_after_status_request_never_restarts (t : Nat) :
    bootRun (setup 0) [{ quiet 1000 with requests := [⟨"/status", 1000, 1000⟩] }]
        = some { setup 1000 with hasActiveConnection := true }
    ∧ sub32 (millis 100000) (setup 1000).lastConnectionTime = 99000
    ∧ activity (quiet t) = false
    ∧ Effect.restart ∉
        (loop { setup 1000 with hasActiveConnection := true } (quiet t)).2 := by
  refine ⟨by decide, by decide, rfl, ?_⟩
  intro h
  have h1 := (loop_restart _ _ h).1
  rw [loop_active _ _ (Or.inl rfl)] at h1
  cases h1

theorem loop_broadcast (s : State) (i : LoopInput)
    (h : ∃ f, Effect.broadcastBIN f ∈ (loop s i).2) :
    (preFrame s i).clientConnected = true
    ∧ ¬ sub32 (millis i.tFrame) s.wsLastFrameTime < wsFrameInterval
    ∧ (loop s i).1.wsLastFrameTime = millis i.tFrame := by
  obtain ⟨f, hf⟩ := h
  rw [loop_eq] at hf ⊢
  simp only at hf ⊢
  rcases List.mem_append.1 hf with h1 | h1
  · rcases List.mem_append.1 h1 with h2 | h2
    · unfold preFrameEffects at h2
      rcases List.mem_append.1 h2 with h3 | h3
      · rcases List.mem_append.1 h3 with h4 | h4
        · rw [registerStep_effects] at h4
          split at h4 <;> simp at h4
        · obtain ⟨c, ct, b, e⟩ := dispatch_effects _ _ (handleRequest_effects i.localIP) _ _ _ h4
          cases e
      · obtain ⟨n, m, e⟩ := dispatch_effects _ _ webSocketEvent_effects _ _ _ h3
        cases e
    · rcases sendCameraFrameWs_cases (preFrame s i) i.tFrame i.fb with e | ⟨_, e⟩ | ⟨g, _, hc, _, ht, e⟩
      · rw [e] at h2; simp at h2
      · rw [e] at h2; simp at h2
      · rw [preFrame_wsLast] at ht
        rw [e]
        exact ⟨hc, ht, rfl⟩
  · have := timeoutCheck_effects _ _ _ h1
    cases this

theorem loop_wsLast (s : State) (i : LoopInput) :
    (loop s i).1.wsLastFrameTime = s.wsLastFrameTime
    ∨ (loop s i).1.wsLastFrameTime = millis i.tFrame := by
  rw [loop_eq]
  simp only
  rcases sendCameraFrameWs_state (preFrame s i) i.tFrame i.fb with e | e
  · left; rw [e, preFrame_wsLast]
  · right; rw [e]

theorem throttle_elapsed (T T2 : Nat) (h : T ≤ T2)
    (hn : ¬ sub32 (millis T2) (millis T) < wsFrameInterval) : T + wsFrameInterval ≤ T2 := by
  unfold wsFrameInterval sub32 millis U32 at *
  omega

theorem frame_gap (mid : List LoopInput) :
    ∀ (s : State) (T : Nat) (s2 : State) (i2 : LoopInput),
      s.wsLastFrameTime = millis T →
      List.Pairwise (fun a b => a ≤ b) (T :: (mid ++ [i2]).map (fun j => j.tFrame)) →
      bootRun s mid = some s2 →
      (∃ f, Effect.broadcastBIN f ∈ (loop s2 i2).2) →
      T + wsFrameInterval ≤ i2.tFrame := by
  induction mid with
  | nil =>
      intro s T s2 i2 hT hp hrun hb
      simp [bootRun] at hrun
      subst hrun
      have hle : T ≤ i2.tFrame := by
        simpa using hp
      have hn := (loop_broadcast s i2 hb).2.1
      rw [hT] at hn
      exact throttle_elapsed T i2.tFrame hle hn
  | cons i rest ih =>
      intro s T s2 i2 hT hp hrun hb
      rw [bootRun_cons] at hrun
      split at hrun
      · simp at hrun
      · simp only [List.cons_append, List.map_cons] at hp
        rw [List.pairwise_cons] at hp
        obtain ⟨hTall, htail⟩ := hp
        rcases loop_wsLast s i with e | e
        · apply ih (loop s i).1 T s2 i2 (e.trans hT) _ hrun hb
          rw [List.pairwise_cons]
          refine ⟨fun a ha => hTall a (List.mem_cons_of_mem _ ha), ?_⟩
          exact (List.pairwise_cons.1 htail).2
        · have h1 := ih (loop s i).1 i.tFrame s2 i2 e htail hrun hb
          have h2 : T ≤ i.tFrame := hTall _ (List.mem_cons_self _ _)
          omega

theorem bootRun_append (a b : List LoopInput) :
    ∀ s, bootRun s (a ++ b) = (bootRun s a).bind (fun s1 => bootRun s1 b) := by
  induction a with
  | nil => intro s; rfl
  | cons i rest ih =>
      intro s
      rw [List.cons_append, bootRun_cons, bootRun_cons]
      split
      · rfl
      · exact ih _

/-- C3: in a boot cycle whose `millis()` readings in `sendCameraFrameWs` come from a
non-decreasing clock, two iterations that both broadcast a frame have clock values at
least `wsFrameInterval` = 100 ms apart, wrap-around of the 32-bit reading included. -/
theorem broadcasts_at_least_interval_apart (t0 : Nat) (pre : List LoopInput) (i1 : LoopInput) (mid : List LoopInput)
    (i2 : LoopInput) (s1 s2 : State)
    (hclock : List.Pairwise (fun a b => a ≤ b)
      ((pre ++ (i1 :: (mid ++ [i2]))).map (fun j => j.tFrame)))
    (h1 : bootRun (setup t0) pre = some s1)
    (h2 : bootRun (setup t0) (pre ++ (i1 :: mid)) = some s2)
    (b1 : ∃ f, Effect.broadcastBIN f ∈ (loop s1 i1).2)
    (b2 : ∃ f, Effect.broadcastBIN f ∈ (loop s2 i2).2) :
    i1.tFrame + wsFrameInterval ≤ i2.tFrame := by
  rw [bootRun_append, h1] at h2
  simp only [Option.bind] at h2
  rw [bootRun_cons] at h2
  split at h2
  · simp at h2
  · rw [List.map_append, List.pairwise_append] at hclock
    have hp := hclock.2.1
    simp only [List.map_cons] at hp
    exact frame_gap mid (loop s1 i1).1 i1.tFrame s2 i2 (loop_broadcast s1 i1 b1).2.2 hp h2 b2

theorem attached_append (a : List Nat) (xs ys : List WsEvent) :
    attached a (xs ++ ys) = attached (attached a xs) ys := by
  simp [attached, List.foldl_append]

theorem attached_cons (a : List Nat) (e : WsEvent) (rest : List WsEvent) :
    attached a (e :: rest) = attached (attachStep a e) rest := rfl

theorem admissible_append (ok : List Nat → WsEvent → Bool) (xs ys : List WsEvent) :
    ∀ a, admissible ok a (xs ++ ys)
      = (admissible ok a xs && admissible ok (attached a xs) ys) := by
  induction xs with
  | nil => intro a; simp [admissible, attached]
  | cons e rest ih =>
      intro a
      rw [List.cons_append, attached_cons]
      show (ok a e && admissible ok (attachStep a e) (rest ++ ys)) = _
      rw [ih, ← Bool.and_assoc]
      rfl

theorem wsHistory_append (a b : List LoopInput) :
    wsHistory (a ++ b) = wsHistory a ++ wsHistory b := by
  induction a with
  | nil => rfl
  | cons i rest ih => simp [wsHistory, ih]

theorem wsHistory_single (i : LoopInput) : wsHistory [i] = i.wsEvents := by
  simp [wsHistory]

theorem registerStep_clientConnected (s : State) (i : LoopInput) :
    (registerStep s i).1.clientConnected = s.clientConnected := by
  rw [registerStep_state]

theorem atRequest_clientConnected (s : State) (i : LoopInput) (rs : List HttpRequest) :
    (atRequest s i rs).clientConnected = s.clientConnected := by
  unfold atRequest
  rw [dispatch_preserves State.clientConnected _ (handleRequest_clientConnected i.localIP),
    registerStep_clientConnected]

/-- A relation between the flag `clientConnected` and the attached slots that every
admissible event preserves holds after a poll of the WebSocket server. -/
theorem dispatch_ws_ghost (I : Bool → List Nat → Prop) (ok : List Nat → WsEvent → Bool)
    (step : ∀ (s : State) a e, ok a e = true → I s.clientConnected a →
      I (webSocketEvent s e).1.clientConnected (attachStep a e))
    (es : List WsEvent) :
    ∀ (s : State) a, I s.clientConnected a → admissible ok a es = true →
      I (dispatch webSocketEvent s es).1.clientConnected (attached a es) := by
  induction es with
  | nil => intro s a h _; exact h
  | cons e rest ih =>
      intro s a h hok
      simp only [admissible, Bool.and_eq_true] at hok
      rw [dispatch_cons, attached_cons]
      exact ih _ _ (step s a e hok.1 h) hok.2

theorem preFrame_ghost (I : Bool → List Nat → Prop) (ok : List Nat → WsEvent → Bool)
    (step : ∀ (s : State) a e, ok a e = true → I s.clientConnected a →
      I (webSocketEvent s e).1.clientConnected (attachStep a e))
    (s : State) (i : LoopInput) (a : List Nat)
    (h : I s.clientConnected a) (hok : admissible ok a i.wsEvents = true) :
    I (preFrame s i).clientConnected (attached a i.wsEvents) := by
  have h0 : I (atRequest s i i.requests).clientConnected a := by
    rw [atRequest_clientConnected]; exact h
  exact dispatch_ws_ghost I ok step i.wsEvents _ a h0 hok

theorem loop_clientConnected (s : State) (i : LoopInput) :
    (loop s i).1.clientConnected = (preFrame s i).clientConnected := by
  rw [loop_eq]
  exact (frame_connection _ _ _).2.2

theorem bootRun_ghost (I : Bool → List Nat → Prop) (ok : List Nat → WsEvent → Bool)
    (step : ∀ (s : State) a e, ok a e = true → I s.clientConnected a →
      I (webSocketEvent s e).1.clientConnected (attachStep a e))
    (pre : List LoopInput) :
    ∀ (s : State) a s1, I s.clientConnected a → bootRun s pre = some s1 →
      admissible ok a (wsHistory pre) = true →
      I s1.clientConnected (attached a (wsHistory pre)) := by
  induction pre with
  | nil => intro s a s1 h hrun _; simp [bootRun] at hrun; rw [← hrun]; exact h
  | cons i rest ih =>
      intro s a s1 h hrun hok
      rw [bootRun_cons] at hrun
      split at hrun
      · simp at hrun
      · simp only [wsHistory, admissible_append, Bool.and_eq_true] at hok
        simp only [wsHistory, attached_append]
        apply ih _ _ _ _ hrun hok.2
        rw [loop_clientConnected]
        exact preFrame_ghost I ok step s i a h hok.1

theorem slotZeroFirst_step (s : State) (a : List Nat) (e : WsEvent)
    (hok : slotZeroFirstEvent a e = true) (h : s.clientConnected = true → 0 ∈ a) :
    (webSocketEvent s e).1.clientConnected = true → 0 ∈ attachStep a e := by
  unfold webSocketEvent attachStep
  unfold slotZeroFirstEvent at hok
  cases ht : e.type <;> simp only [ht] at hok ⊢
  case DISCONNECTED =>
    by_cases hn : e.num = 0
    · simp [hn]
    · intro hc
      simp only [hn, if_false] at hc
      have := h hc
      simp only [List.mem_filter, bne_iff_ne, ne_eq]
      exact ⟨this, fun c => hn c.symm⟩
  case CONNECTED =>
    intro _
    simp at hok
    rcases hok with h0 | h0
    · simp [h0]
    · exact List.mem_cons_of_mem _ h0
  all_goals first
    | exact h
    | (split
       · exact h
       · split <;> exact h)

/-- C4 (amended): when every connect on a slot other than 0 happens while slot 0 is
attached, an iteration that broadcasts a frame does so while slot 0 is attached, so the
set of attached clients is not empty. -/
theorem broadcast_implies_slot_zero_attached (t0 : Nat) (pre : List LoopInput) (i : LoopInput) (s : State)
    (h : bootRun (setup t0) pre = some s)
    (hz : admissible slotZeroFirstEvent [] (wsHistory (pre ++ [i])) = true)
    (hb : ∃ f, Effect.broadcastBIN f ∈ (loop s i).2) :
    0 ∈ attached [] (wsHistory (pre ++ [i]))
    ∧ attached [] (wsHistory (pre ++ [i])) ≠ [] := by
  have key : 0 ∈ attached [] (wsHistory (pre ++ [i])) := by
    rw [wsHistory_append, wsHistory_single, admissible_append, Bool.and_eq_true] at hz
    rw [wsHistory_append, wsHistory_single, attached_append]
    have hs := bootRun_ghost (fun b a => b = true → 0 ∈ a) slotZeroFirstEvent
      slotZeroFirst_step pre (setup t0) [] s (by intro c; cases c) h hz.1
    exact preFrame_ghost (fun b a => b = true → 0 ∈ a) slotZeroFirstEvent
      slotZeroFirst_step s i _ hs hz.2 (loop_broadcast s i hb).1
  exact ⟨key, List.ne_nil_of_mem key⟩

/-- C4 as stated fails: a client connects on slot 1 and disconnects again; the flag
`clientConnected` is still set and the next iteration broadcasts a frame although no
client is attached. -/
theorem broadcast_without_attached_client :
    ¬ BroadcastImpliesAttached 0
        [{ quiet 1000 with wsEvents := [⟨1, .CONNECTED, [], 1000⟩] }]
        { quiet 2000 with wsEvents := [⟨1, .DISCONNECTED, [], 2000⟩] } := by
  intro h
  have h2 := h _ rfl (by decide) ⟨[255, 216], by decide⟩
  revert h2
  decide

theorem statusJson_layout (ip : String) (ms : Nat) (b : Bool) :
    statusJson ip ms b
      = "\x7b\"ip\":\"" ++ ip ++ "\",\"wsPort\":81,\"uptime\":"
          ++ toString (ms / 1000) ++ ",\"connected\":"
          ++ (if b then "true" else "false") ++ "\x7d" := by
  have e1 : "\x7b\"ip\":\"" = "\x7b" ++ "\"ip\":\"" := by decide
  have e2 : "\",\"wsPort\":81,\"uptime\":" = "\"," ++ ("\"wsPort\":81," ++ "\"uptime\":") := by
    decide
  have e3 : ",\"connected\":" = "," ++ "\"connected\":" := by decide
  unfold statusJson
  rw [e1, e2, e3]
  simp only [String.append_assoc]

theorem slotZeroOnly_step (s : State) (a : List Nat) (e : WsEvent)
    (hok : slotZeroOnlyEvent a e = true)
    (h : (∀ x ∈ a, x = 0) ∧ (s.clientConnected = true ↔ a ≠ [])) :
    (∀ x ∈ attachStep a e, x = 0)
    ∧ ((webSocketEvent s e).1.clientConnected = true ↔ attachStep a e ≠ []) := by
  unfold webSocketEvent attachStep
  unfold slotZeroOnlyEvent at hok
  cases ht : e.type <;> simp only [ht] at hok ⊢
  case DISCONNECTED =>
    by_cases hn : e.num = 0
    · have : a.filter (fun n => n != e.num) = [] := by
        rw [List.filter_eq_nil_iff]
        intro x hx
        simp [hn, h.1 x hx]
      rw [this]
      simp [hn]
    · have : a.filter (fun n => n != e.num) = a := by
        rw [List.filter_eq_self]
        intro x hx
        have := h.1 x hx
        simp only [bne_iff_ne, ne_eq]
        intro c
        exact hn (c ▸ this)
      rw [this]
      simp only [hn, if_false]
      exact h
  case CONNECTED =>
    simp at hok
    refine ⟨?_, by simp⟩
    intro x hx
    rcases List.mem_cons.1 hx with c | c
    · rw [c, hok]
    · exact h.1 x c
  all_goals first
    | exact h
    | (split
       · exact h
       · split <;> exact h)

/-- C6 (amended): when every connect so far was on slot 0, a request to "/status" is
answered 200 "application/json" with the body
`{"ip":"<local IP>","wsPort":81,"uptime":<millis()/1000>,"connected":<b>}` where `<b>`
is `true` if a client is attached and `false` if none is. -/
theorem status_json_single_session (t0 : Nat) (pre : List LoopInput) (i : LoopInput)
    (rs : List HttpRequest) (r : HttpRequest) (s : State)
    (h : bootRun (setup t0) pre = some s)
    (hz : admissible slotZeroOnlyEvent [] (wsHistory pre) = true)
    (hr : r.uri = "/status") :
    (handleRequest i.localIP (atRequest s i rs) r).2
      = [.httpSend 200 "application/json"
          ("\x7b\"ip\":\"" ++ i.localIP ++ "\",\"wsPort\":81,\"uptime\":"
            ++ toString (millis r.tUptime / 1000) ++ ",\"connected\":"
            ++ (if attached [] (wsHistory pre) ≠ [] then "true" else "false") ++ "\x7d")] := by
  have hs := bootRun_ghost (fun b a => (∀ x ∈ a, x = 0) ∧ (b = true ↔ a ≠ []))
    slotZeroOnlyEvent slotZeroOnly_step pre (setup t0) [] s (by simp [setup]) h hz
  have hcc : (atRequest s i rs).clientConnected = true ↔ attached [] (wsHistory pre) ≠ [] := by
    rw [atRequest_clientConnected]; exact hs.2
  rcases handleRequest_cases i.localIP (atRequest s i rs) r with ⟨hu, _⟩ | ⟨_, e⟩ | ⟨_, hu, _⟩
  · rw [hr] at hu; exact absurd hu (by decide)
  · rw [e]
    unfold handleStatus
    simp only
    rw [statusJson_layout]
    by_cases hc : (atRequest s i rs).clientConnected = true
    · rw [if_pos hc, if_pos (hcc.1 hc)]
    · rw [if_neg hc, if_neg (fun c => hc (hcc.2 c))]
  · exact absurd hr hu

/-- C6 as stated fails: clients connect on slots 0 and 1 and the one on slot 0
disconnects; the status body says `"connected":false` while slot 1 is attached. -/
theorem status_json_misses_second_client :
    ¬ StatusMatchesAttachment 0
        [{ quiet 1000 with wsEvents :=
            [⟨0, .CONNECTED, [], 1000⟩, ⟨1, .CONNECTED, [], 1000⟩, ⟨0, .DISCONNECTED, [], 1000⟩] }]
        (quiet 2000) [] ⟨"/status", 2000, 2000⟩ := by
  intro h
  have h2 := h _ rfl (by decide) rfl
  revert h2
  decide

/-- Instance for C7: a request to "/stream". -/
theorem unknown_route_not_found_witness :
    handleRequest "192.168.4.1" (setup 0) ⟨"/stream", 5, 5⟩
      = (setup 0, [.httpSend 404 "text/plain" "Not found"]) :=
  (unknown_route_not_found "192.168.4.1" (setup 0) ⟨"/stream", 5, 5⟩).1
    (by decide) (by decide)

/-- Instance for C8 across the wrap-around of `millis()`: the last frame was stamped 6 ms
before the wrap and the capture fails 100 ms after it. -/
theorem capture_failure_consumes_slot_witness :
    wsFrameInterval ≤ sub32 (millis 4294967396) 4294967290
    ∧ sendCameraFrameWs
        { setup 0 with clientConnected := true, streamActive := true,
                       wsLastFrameTime := 4294967290 } 4294967396 none
      = ({ setup 0 with clientConnected := true, streamActive := true,
                        wsLastFrameTime := 100 }, [.fbGet none]) :=
  ⟨by decide,
   capture_failure_consumes_slot
    { setup 0 with clientConnected := true, streamActive := true,
                   wsLastFrameTime := 4294967290 } 4294967396 rfl rfl (by decide)⟩

/-- Instance for C5: authentication becomes ready in the third iteration and the write of
the address fails. -/
theorem registration_exactly_first_ready_witness :
    registrations
        (loop (setup 0) { quiet 3000 with appReady := true, ipWriteOk := false }).2 = 1
    ∧ registrations
        (bootTrace (setup 0)
          [quiet 1000, { quiet 2000 with appReady := true }, { quiet 3000 with appReady := true }])
        ≤ 1 :=
  have h := registration_exactly_first_ready 0 [quiet 1000, quiet 2000]
    { quiet 3000 with appReady := true, ipWriteOk := false } (setup 0)
    [quiet 1000, { quiet 2000 with appReady := true }, { quiet 3000 with appReady := true }]
    (by decide)
  ⟨h.1.trans (by decide), h.2⟩

/-- Instance for C10: no restart 99 s after a status request, and a restart 70 s after
boot without any activity. -/
theorem restart_unreachable_after_activity_witness :
    Effect.restart ∉
        (loop { setup 1000 with hasActiveConnection := true } (quiet 100000)).2
    ∧ Effect.restart ∈ (loop (setup 0) (quiet 70000)).2
    ∧ connectionTimeout < sub32 (millis 70000) (millis 0) :=
  ⟨(restart_unreachable_after_activity 0
      [{ quiet 1000 with requests := [⟨"/status", 1000, 1000⟩] }] (quiet 100000)
      { setup 1000 with hasActiveConnection := true } (by decide)).1
      ⟨_, List.mem_append_left _ (List.mem_singleton_self _), by decide⟩,
   by decide,
   ((restart_unreachable_after_activity 0 [] (quiet 70000) (setup 0) rfl).2
      (by decide)).2.1⟩

/-- Instance for C3 across the wrap-around of `millis()`: a frame goes out 6 ms before
the wrap, none 50 ms later, the next one 100 ms later. -/
theorem broadcasts_at_least_interval_apart_witness :
    (∃ f, Effect.broadcastBIN f ∈
        (loop (setup 4294960000)
          { quiet 4294967290 with wsEvents := [⟨0, .CONNECTED, [], 4294967290⟩] }).2)
    ∧ 4294967290 + wsFrameInterval ≤ (quiet 4294967390).tFrame :=
  ⟨⟨[255, 216], by decide⟩,
   broadcasts_at_least_interval_apart 4294960000 []
    { quiet 4294967290 with wsEvents := [⟨0, .CONNECTED, [], 4294967290⟩] }
    [quiet 4294967340] (quiet 4294967390) (setup 4294960000)
    { clientConnected := true, wsLastFrameTime := 4294967290, streamActive := true,
      lastConnectionTime := 4294967290, hasActiveConnection := true, taskComplete := false }
    (by decide) rfl (by decide) ⟨[255, 216], by decide⟩ ⟨[255, 216], by decide⟩⟩

/-- Instance for C4: clients on slots 0 and 1, the one on slot 1 leaves, the next frame
goes to the client on slot 0. -/
theorem broadcast_implies_slot_zero_attached_witness :
    0 ∈ attached []
        (wsHistory
          ([{ quiet 1000 with
                wsEvents := [⟨0, .CONNECTED, [], 1000⟩, ⟨1, .CONNECTED, [], 1000⟩] }]
            ++ [{ quiet 2000 with wsEvents := [⟨1, .DISCONNECTED, [], 2000⟩] }])) :=
  (broadcast_implies_slot_zero_attached 0
    [{ quiet 1000 with wsEvents := [⟨0, .CONNECTED, [], 1000⟩, ⟨1, .CONNECTED, [], 1000⟩] }]
    { quiet 2000 with wsEvents := [⟨1, .DISCONNECTED, [], 2000⟩] }
    { clientConnected := true, wsLastFrameTime := 1000, streamActive := true,
      lastConnectionTime := 1000, hasActiveConnection := true, taskComplete := false }
    (by decide) (by decide) ⟨[255, 216], by decide⟩).1

/-- Instance for C6: one client on slot 0, a request to "/" and then one to "/status" in
the iteration at 2 s. -/
theorem status_json_single_session_witness :
    (handleRequest "192.168.4.1"
        (atRequest
          { clientConnected := true, wsLastFrameTime := 1000, streamActive := true,
            lastConnectionTime := 1000, hasActiveConnection := true, taskComplete := false }
          (quiet 2000) [⟨"/", 1500, 1500⟩])
        ⟨"/status", 2000, 2000⟩).2
      = [.httpSend 200 "application/json"
          "\x7b\"ip\":\"192.168.4.1\",\"wsPort\":81,\"uptime\":2,\"connected\":true\x7d"] :=
  (status_json_single_session 0
    [{ quiet 1000 with wsEvents := [⟨0, .CONNECTED, [], 1000⟩] }] (quiet 2000)
    [⟨"/", 1500, 1500⟩] ⟨"/status", 2000, 2000⟩
    { clientConnected := true, wsLastFrameTime := 1000, streamActive := true,
      lastConnectionTime := 1000, hasActiveConnection := true, taskComplete := false }
    (by decide) (by decide) rfl).trans (by decide)

end Esp32Cam
